import Mathlib

/-!
Shallow embedding of the session-lifecycle engine of `src/flask_app.py`
(a Flask application that drives a Telethon login flow).

The mutable runtime state of the Python process is modelled by `World`:
the `active_sessions` dict (an association list keyed by the session-id
string), the set of currently connected Telegram clients (clients are
identified by the `Nat` id a counter hands out at creation), and that
counter.  Outcomes of the remote protocol calls (`connect`,
`send_code_request`, `sign_in`, `StringSession.save`) are external
nondeterminism and are passed in as explicit outcome values.  Each HTTP
request is evaluated at a single timestamp `now : Nat` (the source calls
`time.time()` at most microseconds apart inside one request).
`run_async` is modelled as synchronous completion of the scheduled
coroutine; the bridge-timeout paths are out of scope of this embedding.
-/

namespace TelethonSession

/-- One entry of the `active_sessions` dict, exactly the keys stored at
`flask_app.py` lines 136-143.  `client` is `Option` because the code reads
it back with `sess.get("client")` and guards `if not client`. -/
structure SessionRec where
  client : Option Nat
  api_id : Int
  api_hash : String
  phone : String
  phone_code_hash : Option String
  created_at : Nat
deriving DecidableEq, Repr

/-- Process state: the `active_sessions` dict, the set of live (connected)
client ids, and the id the next created `TelegramClient` will get. -/
structure World where
  active_sessions : List (String × SessionRec)
  connected : List Nat
  nextClient : Nat
deriving DecidableEq, Repr

/-- `active_sessions.get(sid)` — first entry with the given key. -/
def dictGet : List (String × SessionRec) → String → Option SessionRec
  | [], _ => none
  | (k, v) :: rest, sid => if k = sid then some v else dictGet rest sid

/-- `active_sessions[sid] = rec` — replace in place, else append. -/
def dictInsert : List (String × SessionRec) → String → SessionRec → List (String × SessionRec)
  | [], sid, rec => [(sid, rec)]
  | (k, v) :: rest, sid, rec =>
      if k = sid then (sid, rec) :: rest else (k, v) :: dictInsert rest sid rec

/-- `del active_sessions[sid]` — Python dict keys are unique, so removing
every entry with the key is the faithful model. -/
def dictErase (l : List (String × SessionRec)) (sid : String) : List (String × SessionRec) :=
  l.filter (fun p => p.1 ≠ sid)

/-- The JSON body a route hands back via `jsonify`. -/
structure Response where
  success : Bool
  error : Option String
  session_id : Option String
  session_string : Option String
deriving DecidableEq, Repr

/-- `jsonify` of a `success: False, error: msg` dict. -/
def errResp (msg : String) : Response := ⟨false, some msg, none, none⟩

/-- `jsonify` of a `success: True, session_id: sid` dict. -/
def okSession (sid : String) : Response := ⟨true, none, some sid, none⟩

/-- `jsonify` of a `success: True, session_string: s` dict. -/
def okString (s : String) : Response := ⟨true, none, none, some s⟩

/-- `cleanup_session` (lines 66-81): look the session up; if present,
disconnect its client (idempotent on the `connected` set) and delete the
record from the dict. -/
def cleanup_session (session_id : String) (w : World) : World :=
  match dictGet w.active_sessions session_id with
  | none => w
  | some sess =>
      match sess.client with
      | some c =>
          { active_sessions := dictErase w.active_sessions session_id,
            connected := w.connected.erase c,
            nextClient := w.nextClient }
      | none =>
          { active_sessions := dictErase w.active_sessions session_id,
            connected := w.connected,
            nextClient := w.nextClient }

/-- `expire_old_sessions` (lines 83-88): collect the ids of every record
with `now - created_at > 600` (Python float subtraction and `Nat`
truncated subtraction agree on the comparison), then `cleanup_session`
each of them. -/
def expire_old_sessions (now : Nat) (w : World) : World :=
  let expired :=
    (w.active_sessions.filter (fun p => now - p.2.created_at > 600)).map (fun p => p.1)
  expired.foldl (fun acc sid => cleanup_session sid acc) w

/-- Outcome of `await client.connect()`. -/
inductive ConnectResult
  | ok
  | fail (e : String)
deriving DecidableEq, Repr

/-- Outcome of `await client.send_code_request(phone)`; `sent` carries
`getattr(sent, "phone_code_hash", None)`. -/
inductive SendCodeResult
  | sent (phone_code_hash : Option String)
  | apiIdInvalid
  | phoneNumberInvalid
  | fail (e : String)
deriving DecidableEq, Repr

/-- Outcome of `await client.sign_in(phone=..., code=...)`. -/
inductive SignInResult
  | ok
  | passwordNeeded
  | codeInvalid
  | codeExpired
  | fail (e : String)
deriving DecidableEq, Repr

/-- Outcome of `StringSession.save(client.session)`. -/
inductive ExportResult
  | ok (s : String)
  | fail (e : String)
deriving DecidableEq, Repr

/-- Outcome of `await client.sign_in(password=...)`. -/
inductive PwSignInResult
  | ok
  | fail (e : String)
deriving DecidableEq, Repr

/-- `async_send_code` (lines 93-146): create a client, connect, request a
code; on any failure disconnect and return an error without storing
anything; on success store the record and return the session id. -/
def async_send_code (api_id : Int) (api_hash phone session_id : String)
    (co : ConnectResult) (sr : SendCodeResult) (now : Nat) (w : World) : World × Response :=
  let client := w.nextClient
  let w := { w with nextClient := w.nextClient + 1 }
  match co with
  | .fail e =>
      ({ w with connected := w.connected.erase client },
       errResp ("Failed to connect: " ++ e))
  | .ok =>
    let w := { w with connected := client :: w.connected }
    match sr with
    | .apiIdInvalid =>
        ({ w with connected := w.connected.erase client }, errResp "Invalid API ID")
    | .phoneNumberInvalid =>
        ({ w with connected := w.connected.erase client }, errResp "Invalid phone number")
    | .fail e =>
        ({ w with connected := w.connected.erase client },
         errResp ("Failed to send code: " ++ e))
    | .sent pch =>
        ({ w with active_sessions :=
            (dictInsert w.active_sessions session_id
              ⟨some client, api_id, api_hash, phone, pch, now⟩) },
         okSession session_id)

/-- `async_verify_code` (lines 148-201): look up the session, sign in with
the code; retryable failures leave the world untouched; on success export
the session string, disconnect and clean up. -/
def async_verify_code (session_id _code : String) (si : SignInResult) (ex : ExportResult)
    (w : World) : World × Response :=
  match dictGet w.active_sessions session_id with
  | none => (w, errResp "Session expired. Please start over.")
  | some sess =>
    match sess.client with
    | none => (w, errResp "Internal error: missing client")
    | some client =>
      match si with
      | .passwordNeeded => (w, errResp "2FA password required")
      | .codeInvalid => (w, errResp "Invalid verification code")
      | .codeExpired =>
          (w, errResp "Verification code expired. Please request a new code.")
      | .fail e => (w, errResp ("Verification failed: " ++ e))
      | .ok =>
        match ex with
        | .fail e =>
            let w := { w with connected := w.connected.erase client }
            (cleanup_session session_id w,
             errResp ("Failed to export session string: " ++ e))
        | .ok s =>
            let w := { w with connected := w.connected.erase client }
            (cleanup_session session_id w, okString s)

/-- `async_submit_2fa` (lines 203-239): look up the session, sign in with
the password; any `sign_in` exception is reported as "Invalid 2FA
password" with the world untouched; on success export, disconnect, clean
up. -/
def async_submit_2fa (session_id _password : String) (si : PwSignInResult) (ex : ExportResult)
    (w : World) : World × Response :=
  match dictGet w.active_sessions session_id with
  | none => (w, errResp "Session expired. Please start over.")
  | some sess =>
    match sess.client with
    | none => (w, errResp "Internal error: missing client")
    | some client =>
      match si with
      | .fail _e => (w, errResp "Invalid 2FA password")
      | .ok =>
        match ex with
        | .fail e =>
            let w := { w with connected := w.connected.erase client }
            (cleanup_session session_id w, errResp ("Failed to export session: " ++ e))
        | .ok s =>
            let w := { w with connected := w.connected.erase client }
            (cleanup_session session_id w, okString s)

/-- A JSON value arriving in the `api_id` field (the frontend sends a
string; a raw JSON number is also possible). -/
inductive JVal
  | jstr (s : String)
  | jint (n : Int)
deriving DecidableEq, Repr

/-- Python truthiness of a JSON value. -/
def JVal.truthy : JVal → Bool
  | .jstr s => s ≠ ""
  | .jint n => n ≠ 0

/-- Digits-only string to a number, as Python `int` reads the magnitude. -/
def digitsToNat (cs : List Char) : Option Nat :=
  if cs ≠ [] ∧ cs.all Char.isDigit then
    some (cs.foldl (fun a c => a * 10 + (c.toNat - 48)) 0)
  else none

/-- Python `int(s)` on a string: an optional sign followed by digits;
anything else raises `ValueError` (modelled as `none`). -/
def parseIntStr (s : String) : Option Int :=
  match s.toList with
  | '-' :: rest => (digitsToNat rest).map (fun n => -(n : Int))
  | '+' :: rest => (digitsToNat rest).map (fun n => (n : Int))
  | cs => (digitsToNat cs).map (fun n => (n : Int))

/-- Python `int(x)` on the raw JSON value. -/
def JVal.toInt : JVal → Option Int
  | .jint n => some n
  | .jstr s => parseIntStr s

/-- Truthiness of `data.get("api_id")` (missing key gives `None`). -/
def optTruthy : Option JVal → Bool
  | none => false
  | some v => v.truthy

/-- Truthiness of a string field fetched with `data.get` (missing key
gives `None`, an empty string is falsy). -/
def optStrTruthy : Option String → Bool
  | none => false
  | some s => s ≠ ""

/-- The JSON body of a `/send_code` request. -/
structure SendCodeRequest where
  api_id : Option JVal
  api_hash : Option String
  phone_number : Option String
deriving DecidableEq, Repr

/-- `/send_code` route (lines 466-499): sweep, require all three fields
truthy, require `int(api_id)` to parse, then run `async_send_code` with a
freshly generated `session_id` (the random token is a parameter here). -/
def send_code (req : SendCodeRequest) (session_id : String)
    (co : ConnectResult) (sr : SendCodeResult) (now : Nat) (w : World) : World × Response :=
  let w := expire_old_sessions now w
  if optTruthy req.api_id && optStrTruthy req.api_hash && optStrTruthy req.phone_number then
    match (req.api_id.getD (.jint 0)).toInt with
    | none => (w, errResp "API ID must be a number")
    | some api_id =>
        async_send_code api_id (req.api_hash.getD "") (req.phone_number.getD "")
          session_id co sr now w
  else
    (w, errResp "All fields are required")

/-- `/verify_code` route (lines 501-529): sweep, require both fields
truthy, look the session up, apply the (post-sweep unreachable) TTL
check of lines 516-518, then run `async_verify_code`. -/
def verify_code (session_id phone_code : Option String) (si : SignInResult) (ex : ExportResult)
    (now : Nat) (w : World) : World × Response :=
  let w := expire_old_sessions now w
  if optStrTruthy session_id && optStrTruthy phone_code then
    let sid := session_id.getD ""
    match dictGet w.active_sessions sid with
    | none => (w, errResp "Session expired. Please start over.")
    | some session =>
      if now - session.created_at > 600 then
        (cleanup_session sid w, errResp "Session expired. Please request a new code.")
      else
        async_verify_code sid (phone_code.getD "") si ex w
  else
    (w, errResp "All fields are required")

/-- `/submit_2fa` route (lines 531-555): sweep, require both fields
truthy, then run `async_submit_2fa` (this route has no TTL re-check). -/
def submit_2fa (session_id password : Option String) (si : PwSignInResult) (ex : ExportResult)
    (now : Nat) (w : World) : World × Response :=
  let w := expire_old_sessions now w
  if optStrTruthy session_id && optStrTruthy password then
    let sid := session_id.getD ""
    match dictGet w.active_sessions sid with
    | none => (w, errResp "Session expired. Please start over.")
    | some _session =>
        async_submit_2fa sid (password.getD "") si ex w
  else
    (w, errResp "All fields are required")

/-!
Event-loop interleaving model for the concurrency claim.

`run_async` schedules each request's coroutine on the single background
asyncio loop (lines 39-61).  A coroutine runs atomically between `await`
points; at an `await` it suspends and other scheduled coroutines may run.
`async_verify_code` therefore decomposes into segments separated by its
awaits: the segment up to `await client.sign_in(...)` (lines 149-163),
the segment from the sign-in result to `await client.disconnect()`
(`StringSession.save` is synchronous), and the segment after the
disconnect completes (`cleanup_session` and return).  No lock of any kind
is acquired anywhere in the source.
-/

/-- Where one scheduled `async_verify_code` coroutine currently is. -/
inductive TaskPhase
  | ready
  | signInFlight (sid : String) (client : Nat)
  | disconnectFlight (sid : String) (client : Nat) (resp : Response)
  | done (resp : Response)
deriving DecidableEq, Repr

/-- Whether the task currently has a `sign_in` protocol invocation in
flight on its session's client. -/
def TaskPhase.inSignIn : TaskPhase → Bool
  | .signInFlight _ _ => true
  | _ => false

/-- First segment of `async_verify_code` (lines 149-163): look the
session up, read its client, and issue `sign_in` (suspending on it). -/
def runStart (sid : String) (w : World) : World × TaskPhase :=
  match dictGet w.active_sessions sid with
  | none => (w, .done (errResp "Session expired. Please start over."))
  | some sess =>
    match sess.client with
    | none => (w, .done (errResp "Internal error: missing client"))
    | some c => (w, .signInFlight sid c)

/-- Second segment (lines 164-198): the `sign_in` await completes with
outcome `si`; retryable errors finish the task, success exports the
string and issues `disconnect`. -/
def runSignInDone (ph : TaskPhase) (si : SignInResult) (ex : ExportResult)
    (w : World) : World × TaskPhase :=
  match ph with
  | .signInFlight sid c =>
    match si with
    | .passwordNeeded => (w, .done (errResp "2FA password required"))
    | .codeInvalid => (w, .done (errResp "Invalid verification code"))
    | .codeExpired =>
        (w, .done (errResp "Verification code expired. Please request a new code."))
    | .fail e => (w, .done (errResp ("Verification failed: " ++ e)))
    | .ok =>
      match ex with
      | .ok s => (w, .disconnectFlight sid c (okString s))
      | .fail e =>
          (w, .disconnectFlight sid c (errResp ("Failed to export session string: " ++ e)))
  | _ => (w, ph)

/-- Third segment (lines 195-201): the `disconnect` await completes, then
`cleanup_session` runs and the coroutine returns its response. -/
def runDisconnectDone (ph : TaskPhase) (w : World) : World × TaskPhase :=
  match ph with
  | .disconnectFlight sid c resp =>
      let w := { w with connected := w.connected.erase c }
      (cleanup_session sid w, .done resp)
  | _ => (w, ph)

/-- Two concurrent `/verify_code` requests for the same handle, scheduled
as two coroutines on the one background loop. -/
structure LoopState where
  w : World
  t1 : TaskPhase
  t2 : TaskPhase
deriving DecidableEq, Repr

/-- A scheduling decision of the event loop: which pending task advances
to its next suspension point, and with which external outcome. -/
inductive LoopAction
  | start1
  | start2
  | finishSignIn1 (si : SignInResult) (ex : ExportResult)
  | finishSignIn2 (si : SignInResult) (ex : ExportResult)
  | finishDisconnect1
  | finishDisconnect2
deriving DecidableEq, Repr

/-- One event-loop step: exactly one coroutine segment runs, atomically.
An action whose task is not at the matching suspension point is a no-op
(the loop cannot resume a task that is not suspended there). -/
def loopStep (sid : String) (s : LoopState) (a : LoopAction) : LoopState :=
  match a with
  | .start1 =>
      match s.t1 with
      | .ready =>
          match runStart sid s.w with
          | (w, t) => ⟨w, t, s.t2⟩
      | _ => s
  | .start2 =>
      match s.t2 with
      | .ready =>
          match runStart sid s.w with
          | (w, t) => ⟨w, s.t1, t⟩
      | _ => s
  | .finishSignIn1 si ex =>
      match runSignInDone s.t1 si ex s.w with
      | (w, t) => ⟨w, t, s.t2⟩
  | .finishSignIn2 si ex =>
      match runSignInDone s.t2 si ex s.w with
      | (w, t) => ⟨w, s.t1, t⟩
  | .finishDisconnect1 =>
      match runDisconnectDone s.t1 s.w with
      | (w, t) => ⟨w, t, s.t2⟩
  | .finishDisconnect2 =>
      match runDisconnectDone s.t2 s.w with
      | (w, t) => ⟨w, s.t1, t⟩

/-- Run a whole schedule of event-loop decisions. -/
def runSchedule (sid : String) (s : LoopState) (acts : List LoopAction) : LoopState :=
  acts.foldl (loopStep sid) s

/-! ### The record-connection invariant -/

/-- Keys of the `active_sessions` dict. -/
def storeKeys (w : World) : List String := w.active_sessions.map (fun p => p.1)

/-- Client ids owned by stored records. -/
def storeClients (w : World) : List Nat := w.active_sessions.filterMap (fun p => p.2.client)

/-- The invariant tying records to connections: handles and owned clients
are pairwise distinct, every stored record owns a client, a client id is
connected exactly when some stored record owns it (the "record iff live
connection" property), and all live ids are below the creation counter. -/
def Inv (w : World) : Prop :=
  (storeKeys w).Nodup ∧ w.connected.Nodup ∧ (storeClients w).Nodup ∧
  (∀ p ∈ w.active_sessions, (p.2.client).isSome = true) ∧
  (∀ c ∈ storeClients w, c ∈ w.connected) ∧
  (∀ c ∈ w.connected, c ∈ storeClients w) ∧
  (∀ c ∈ w.connected, c < w.nextClient)

/-! ### Concrete fixtures used by witnesses and counterexamples -/

/-- A concrete stored session: client `0`, created at time 0. -/
def c1rec : SessionRec := ⟨some 0, 1, "hash", "+10000000000", some "pch", 0⟩

/-- A world holding one live session `s1` whose client `0` is connected. -/
def c1world : World := ⟨[("s1", c1rec)], [0], 1⟩

/-- A second session record, created at time 700. -/
def c5recB : SessionRec := ⟨some 1, 2, "hash2", "+2", some "p2", 700⟩

/-- A stale record for the collision counterexample. -/
def c8old : SessionRec := ⟨some 0, 7, "oldhash", "+1", some "t0", 0⟩

/-- A world already holding handle `h` (live client `0`). -/
def c8world : World := ⟨[("h", c8old)], [0], 1⟩

/-! ### Dictionary lemmas -/

theorem dictGet_none_iff {l : List (String × SessionRec)} {sid : String} :
    dictGet l sid = none ↔ ∀ p ∈ l, p.1 ≠ sid := by
  induction l with
  | nil => simp [dictGet]
  | cons hd tl ih =>
    obtain ⟨k, v⟩ := hd
    by_cases h : k = sid
    · subst h; simp [dictGet]
    · simp [dictGet, h, ih]

theorem dictGet_some_mem {l : List (String × SessionRec)} {sid : String} {v : SessionRec}
    (h : dictGet l sid = some v) : (sid, v) ∈ l := by
  induction l with
  | nil => simp [dictGet] at h
  | cons hd tl ih =>
    obtain ⟨k, u⟩ := hd
    by_cases hk : k = sid
    · subst hk
      simp [dictGet] at h
      subst h
      exact List.mem_cons_self _ _
    · simp [dictGet, hk] at h
      exact List.mem_cons_of_mem _ (ih h)

theorem dictErase_mem {l : List (String × SessionRec)} {sid : String} {p : String × SessionRec}
    (h : p ∈ dictErase l sid) : p ∈ l :=
  (List.mem_filter.mp h).1

theorem dictErase_key_ne {l : List (String × SessionRec)} {sid : String} {p : String × SessionRec}
    (h : p ∈ dictErase l sid) : p.1 ≠ sid := by
  have := (List.mem_filter.mp h).2
  simpa using this

theorem dictGet_dictErase_self (l : List (String × SessionRec)) (sid : String) :
    dictGet (dictErase l sid) sid = none :=
  dictGet_none_iff.mpr (fun _ hp => dictErase_key_ne hp)

theorem dictGet_dictErase_ne {l : List (String × SessionRec)} {k sid : String} (h : sid ≠ k) :
    dictGet (dictErase l k) sid = dictGet l sid := by
  induction l with
  | nil => rfl
  | cons hd tl ih =>
    obtain ⟨k', v⟩ := hd
    simp only [dictErase, ne_eq, decide_not] at ih ⊢
    by_cases hk : k' = k
    · have hks : ¬(k' = sid) := fun hs => h (by rw [← hs, hk])
      have hks2 : ¬(k = sid) := fun hs => h hs.symm
      simp [dictGet, List.filter_cons, hk, hks, hks2, ih]
    · by_cases hs : k' = sid
      · simp [dictGet, List.filter_cons, hk, hs, h]
      · simp [dictGet, List.filter_cons, hk, hs, ih]

theorem dictGet_dictInsert_self (l : List (String × SessionRec)) (sid : String)
    (rec : SessionRec) : dictGet (dictInsert l sid rec) sid = some rec := by
  induction l with
  | nil => simp [dictInsert, dictGet]
  | cons hd tl ih =>
    obtain ⟨k, v⟩ := hd
    by_cases h : k = sid
    · simp [dictInsert, h, dictGet]
    · simp [dictInsert, h, dictGet, ih]

/-! ### `cleanup_session` lemmas -/

theorem cleanup_nextClient (sid : String) (w : World) :
    (cleanup_session sid w).nextClient = w.nextClient := by
  unfold cleanup_session
  cases dictGet w.active_sessions sid with
  | none => rfl
  | some sess =>
    obtain ⟨cl, aid, ah, ph, pch, ca⟩ := sess
    cases cl <;> rfl

theorem cleanup_store_mem {sid : String} {w : World} {p : String × SessionRec}
    (h : p ∈ (cleanup_session sid w).active_sessions) : p ∈ w.active_sessions := by
  unfold cleanup_session at h
  cases hg : dictGet w.active_sessions sid with
  | none => rw [hg] at h; exact h
  | some sess =>
    rw [hg] at h
    obtain ⟨cl, aid, ah, ph, pch, ca⟩ := sess
    cases cl <;> exact dictErase_mem h

theorem cleanup_absent {sid x : String} {w : World}
    (h : dictGet w.active_sessions x = none) :
    dictGet (cleanup_session sid w).active_sessions x = none :=
  dictGet_none_iff.mpr (fun p hp => dictGet_none_iff.mp h p (cleanup_store_mem hp))

theorem cleanup_self_absent (sid : String) (w : World) :
    dictGet (cleanup_session sid w).active_sessions sid = none := by
  unfold cleanup_session
  cases hg : dictGet w.active_sessions sid with
  | none => exact hg
  | some sess =>
    obtain ⟨cl, aid, ah, ph, pch, ca⟩ := sess
    cases cl <;> exact dictGet_dictErase_self _ _

theorem cleanup_connected_sublist (sid : String) (w : World) :
    List.Sublist (cleanup_session sid w).connected w.connected := by
  unfold cleanup_session
  cases dictGet w.active_sessions sid with
  | none => exact List.Sublist.refl _
  | some sess =>
    obtain ⟨cl, aid, ah, ph, pch, ca⟩ := sess
    cases cl with
    | none => exact List.Sublist.refl _
    | some c => exact List.erase_sublist c w.connected

theorem cleanup_not_connected {sid : String} {w : World} {c : Nat} (h : c ∉ w.connected) :
    c ∉ (cleanup_session sid w).connected :=
  fun hc => h ((cleanup_connected_sublist sid w).subset hc)

/-! ### Sweep (`expire_old_sessions`) lemmas -/

theorem foldl_cleanup_absent {sids : List String} {w : World} {x : String}
    (h : dictGet w.active_sessions x = none) :
    dictGet ((sids.foldl (fun acc s => cleanup_session s acc) w).active_sessions) x = none := by
  induction sids generalizing w with
  | nil => exact h
  | cons hd tl ih => exact ih (cleanup_absent h)

theorem foldl_cleanup_mem_absent {sids : List String} {w : World} {sid : String}
    (h : sid ∈ sids) :
    dictGet ((sids.foldl (fun acc s => cleanup_session s acc) w).active_sessions) sid = none := by
  induction sids generalizing w with
  | nil => cases h
  | cons hd tl ih =>
    rcases List.mem_cons.mp h with rfl | h'
    · rw [List.foldl_cons]
      exact foldl_cleanup_absent (cleanup_self_absent _ _)
    · exact ih h'

theorem foldl_cleanup_store_mem {sids : List String} {w : World} {p : String × SessionRec}
    (h : p ∈ (sids.foldl (fun acc s => cleanup_session s acc) w).active_sessions) :
    p ∈ w.active_sessions := by
  induction sids generalizing w with
  | nil => exact h
  | cons hd tl ih =>
    rw [List.foldl_cons] at h
    exact cleanup_store_mem (ih h)

theorem foldl_cleanup_not_connected {sids : List String} {w : World} {c : Nat}
    (h : c ∉ w.connected) :
    c ∉ (sids.foldl (fun acc s => cleanup_session s acc) w).connected := by
  induction sids generalizing w with
  | nil => exact h
  | cons hd tl ih => exact ih (cleanup_not_connected h)

theorem foldl_cleanup_connected_sublist (sids : List String) (w : World) :
    List.Sublist ((sids.foldl (fun acc s => cleanup_session s acc) w).connected) w.connected := by
  induction sids generalizing w with
  | nil => exact List.Sublist.refl _
  | cons hd tl ih =>
    rw [List.foldl_cons]
    exact (ih (cleanup_session hd w)).trans (cleanup_connected_sublist hd w)

theorem foldl_cleanup_nextClient (sids : List String) (w : World) :
    (sids.foldl (fun acc s => cleanup_session s acc) w).nextClient = w.nextClient := by
  induction sids generalizing w with
  | nil => rfl
  | cons hd tl ih => rw [List.foldl_cons, ih, cleanup_nextClient]

theorem expire_def (now : Nat) (w : World) :
    expire_old_sessions now w =
      ((w.active_sessions.filter (fun p => now - p.2.created_at > 600)).map
        (fun p => p.1)).foldl (fun acc sid => cleanup_session sid acc) w := rfl

theorem sweep_absent {now : Nat} {w : World} {sid : String}
    (h : dictGet w.active_sessions sid = none) :
    dictGet (expire_old_sessions now w).active_sessions sid = none :=
  foldl_cleanup_absent h

theorem sweep_expired_absent {now : Nat} {w : World} {sid : String} {sess : SessionRec}
    (hg : dictGet w.active_sessions sid = some sess) (he : now - sess.created_at > 600) :
    dictGet (expire_old_sessions now w).active_sessions sid = none := by
  rw [expire_def]
  apply foldl_cleanup_mem_absent
  apply List.mem_map.mpr
  exact ⟨(sid, sess), List.mem_filter.mpr ⟨dictGet_some_mem hg, by simpa using he⟩, rfl⟩

theorem sweep_store_mem {now : Nat} {w : World} {p : String × SessionRec}
    (h : p ∈ (expire_old_sessions now w).active_sessions) : p ∈ w.active_sessions :=
  foldl_cleanup_store_mem (by rw [expire_def] at h; exact h)

theorem sweep_unexpired {now : Nat} {w : World} {p : String × SessionRec}
    (h : p ∈ (expire_old_sessions now w).active_sessions) : now - p.2.created_at ≤ 600 := by
  by_contra hgt
  push_neg at hgt
  have hmem : p ∈ w.active_sessions := sweep_store_mem h
  have hkey : p.1 ∈ (w.active_sessions.filter
      (fun q => now - q.2.created_at > 600)).map (fun q => q.1) :=
    List.mem_map.mpr ⟨p, List.mem_filter.mpr ⟨hmem, by simpa using hgt⟩, rfl⟩
  have habs : dictGet (((w.active_sessions.filter
      (fun q => now - q.2.created_at > 600)).map (fun q => q.1)).foldl
        (fun acc s => cleanup_session s acc) w).active_sessions p.1 = none :=
    foldl_cleanup_mem_absent hkey
  rw [← expire_def] at habs
  exact dictGet_none_iff.mp habs p h rfl

theorem sweep_idem (now : Nat) (w : World) :
    expire_old_sessions now (expire_old_sessions now w) = expire_old_sessions now w := by
  have hnil : ((expire_old_sessions now w).active_sessions.filter
      (fun p => now - p.2.created_at > 600)) = [] := by
    rw [List.filter_eq_nil_iff]
    intro p hp
    simpa using Nat.not_lt.mpr (sweep_unexpired hp)
  conv_lhs => rw [expire_def, hnil]
  simp

theorem sweep_nextClient (now : Nat) (w : World) :
    (expire_old_sessions now w).nextClient = w.nextClient := by
  rw [expire_def]
  exact foldl_cleanup_nextClient _ _

theorem sweep_connected_sublist (now : Nat) (w : World) :
    List.Sublist (expire_old_sessions now w).connected w.connected := by
  rw [expire_def]
  exact foldl_cleanup_connected_sublist _ _

/-! ### The routes always act on a swept store -/

theorem send_code_sweep (req : SendCodeRequest) (sid : String) (co : ConnectResult)
    (sr : SendCodeResult) (now : Nat) (w : World) :
    send_code req sid co sr now w = send_code req sid co sr now (expire_old_sessions now w) := by
  unfold send_code
  rw [sweep_idem]

theorem verify_code_sweep (sidc pc : Option String) (si : SignInResult) (ex : ExportResult)
    (now : Nat) (w : World) :
    verify_code sidc pc si ex now w =
      verify_code sidc pc si ex now (expire_old_sessions now w) := by
  unfold verify_code
  rw [sweep_idem]

theorem submit_2fa_sweep (sidc pw : Option String) (si : PwSignInResult) (ex : ExportResult)
    (now : Nat) (w : World) :
    submit_2fa sidc pw si ex now w =
      submit_2fa sidc pw si ex now (expire_old_sessions now w) := by
  unfold submit_2fa
  rw [sweep_idem]

/-! ### Claim C1 (concurrency of same-handle operations) -/

/-- C1 counterexample: the claim says two concurrent `verifyCode` calls with
the same handle have their protocol invocations serialized by a per-record
`executionLock` and never overlapping.  The source has no lock of any kind:
a session record (lines 136-143) holds only `client, api_id, api_hash,
phone, phone_code_hash, created_at`, and each request's coroutine runs on
the shared background loop, yielding at every `await`.  Under the schedule
in which the loop starts task 1 (which suspends awaiting `sign_in`) and
then starts task 2, both tasks have a `sign_in` invocation in flight on
the same session's client at the same instant. -/
theorem c1_counterexample :
    (runSchedule "s1" ⟨c1world, .ready, .ready⟩ [.start1, .start2]).t1.inSignIn = true ∧
    (runSchedule "s1" ⟨c1world, .ready, .ready⟩ [.start1, .start2]).t2.inSignIn = true := by
  decide

/-- C1 (amended): no per-record `executionLock` exists; two concurrent
`verifyCode` calls with the same handle are interleaved by the shared
background event loop, atomic only between `await` points, and for every
world in which the handle is live the start-start schedule leaves both
calls' `sign_in` invocations simultaneously in flight on the same
client — they are not serialized. -/
theorem c1_unserialized (w : World) (sid : String) (sess : SessionRec) (c : Nat)
    (hg : dictGet w.active_sessions sid = some sess) (hc : sess.client = some c) :
    runSchedule sid ⟨w, .ready, .ready⟩ [.start1, .start2] =
      ⟨w, .signInFlight sid c, .signInFlight sid c⟩ := by
  simp [runSchedule, loopStep, runStart, hg, hc]

/-- Witness for `c1_unserialized` at the concrete world `c1world`. -/
theorem c1_unserialized_witness :
    dictGet c1world.active_sessions "s1" = some c1rec ∧ c1rec.client = some 0 ∧
    runSchedule "s1" ⟨c1world, .ready, .ready⟩ [.start1, .start2] =
      ⟨c1world, .signInFlight "s1" 0, .signInFlight "s1" 0⟩ :=
  ⟨by decide, by decide, c1_unserialized c1world "s1" c1rec 0 (by decide) (by decide)⟩

/-! ### Claim C2 (absent and expired handles are indistinguishable) -/

/-- C2: a handle absent from the store (`w1`) and a handle present but
expired (`w2`, `now - createdAt > 600`) produce the same response from
`verifyCode` and from `submitPassword`, for every code/password and every
protocol outcome: the sweep at the start of each route removes the
expired record, so both cases fall into the same absent-handle branch
and return the identical `Session expired. Please start over.` error.
(Each request is evaluated at a single timestamp, so the distinct message
of lines 516-518 is unreachable: any record surviving the sweep has
`now - createdAt <= 600`.) -/
theorem c2_indistinguishable (w1 w2 : World) (sid pc pw : String) (sess : SessionRec)
    (si : SignInResult) (ex : ExportResult) (psi : PwSignInResult) (pex : ExportResult)
    (now : Nat)
    (habs : dictGet w1.active_sessions sid = none)
    (hpres : dictGet w2.active_sessions sid = some sess)
    (hexp : now - sess.created_at > 600)
    (hsid : sid ≠ "") (hpc : pc ≠ "") (hpw : pw ≠ "") :
    (verify_code (some sid) (some pc) si ex now w1).2 =
        errResp "Session expired. Please start over." ∧
    (verify_code (some sid) (some pc) si ex now w2).2 =
        errResp "Session expired. Please start over." ∧
    (submit_2fa (some sid) (some pw) psi pex now w1).2 =
        errResp "Session expired. Please start over." ∧
    (submit_2fa (some sid) (some pw) psi pex now w2).2 =
        errResp "Session expired. Please start over." := by
  have h1 : dictGet (expire_old_sessions now w1).active_sessions sid = none :=
    sweep_absent habs
  have h2 : dictGet (expire_old_sessions now w2).active_sessions sid = none :=
    sweep_expired_absent hpres hexp
  refine ⟨?_, ?_, ?_, ?_⟩ <;>
    simp [verify_code, submit_2fa, optStrTruthy, hsid, hpc, hpw, h1, h2]

/-- Witness for `c2_indistinguishable`: empty store versus a record
created at time 0 queried at time 601. -/
theorem c2_indistinguishable_witness :
    (dictGet (⟨[], [], 0⟩ : World).active_sessions "h" = none ∧
     dictGet (⟨[("h", c1rec)], [0], 1⟩ : World).active_sessions "h" = some c1rec ∧
     601 - c1rec.created_at > 600) ∧
    ((verify_code (some "h") (some "1") .ok (.ok "s") 601 ⟨[], [], 0⟩).2 =
        errResp "Session expired. Please start over." ∧
     (verify_code (some "h") (some "1") .ok (.ok "s") 601 ⟨[("h", c1rec)], [0], 1⟩).2 =
        errResp "Session expired. Please start over." ∧
     (submit_2fa (some "h") (some "p") .ok (.ok "s") 601 ⟨[], [], 0⟩).2 =
        errResp "Session expired. Please start over." ∧
     (submit_2fa (some "h") (some "p") .ok (.ok "s") 601 ⟨[("h", c1rec)], [0], 1⟩).2 =
        errResp "Session expired. Please start over.") :=
  ⟨⟨by decide, by decide, by decide⟩,
   c2_indistinguishable ⟨[], [], 0⟩ ⟨[("h", c1rec)], [0], 1⟩ "h" "1" "p" c1rec
     .ok (.ok "s") .ok (.ok "s") 601 (by decide) (by decide) (by decide)
     (by decide) (by decide) (by decide)⟩

/-! ### Claim C6 (begin failure leaves the store untouched) -/

/-- C6: whenever `async_send_code` fails — connect failure, invalid API
id, invalid phone number, or any other `send_code_request` failure — it
returns the matching error (the `Invalid API ID` / `Invalid phone number`
messages are the `InvalidCredentials` kinds, the `Failed to connect` /
`Failed to send code` messages the `NetworkFailure` kinds), the client it
created is not left connected, and `active_sessions` is exactly as
before: the only residue is the bumped client counter. -/
theorem c6_begin_failure (api_id : Int) (api_hash phone session_id e : String)
    (sr : SendCodeResult) (now : Nat) (w : World)
    (hfresh : w.nextClient ∉ w.connected) :
    async_send_code api_id api_hash phone session_id (.fail e) sr now w =
      ({ w with nextClient := w.nextClient + 1 }, errResp ("Failed to connect: " ++ e)) ∧
    async_send_code api_id api_hash phone session_id .ok .apiIdInvalid now w =
      ({ w with nextClient := w.nextClient + 1 }, errResp "Invalid API ID") ∧
    async_send_code api_id api_hash phone session_id .ok .phoneNumberInvalid now w =
      ({ w with nextClient := w.nextClient + 1 }, errResp "Invalid phone number") ∧
    async_send_code api_id api_hash phone session_id .ok (.fail e) now w =
      ({ w with nextClient := w.nextClient + 1 }, errResp ("Failed to send code: " ++ e)) := by
  refine ⟨?_, ?_, ?_, ?_⟩ <;>
    simp [async_send_code, List.erase_cons_head, List.erase_of_not_mem hfresh]

/-- Witness for `c6_begin_failure` on the empty world. -/
theorem c6_begin_failure_witness :
    ((⟨[], [], 0⟩ : World).nextClient ∉ (⟨[], [], 0⟩ : World).connected) ∧
    async_send_code 111 "aa" "+10000000000" "h" .ok .apiIdInvalid 0 ⟨[], [], 0⟩ =
      (⟨[], [], 1⟩, errResp "Invalid API ID") :=
  ⟨by decide,
   (c6_begin_failure 111 "aa" "+10000000000" "h" "boom" .apiIdInvalid 0 ⟨[], [], 0⟩
     (by decide)).2.1⟩

/-! ### Claim C10 (2FA sign-in failures all map to InvalidPassword) -/

/-- C10: for a known handle, every exception of the password `sign_in`
call — whatever its cause, transport failures included (the source's
`except Exception` at lines 216-218 catches everything) — yields the
single `Invalid 2FA password` error and leaves the world, and so the
session record, untouched; no failure of this step produces a network
error or destroys the session. -/
theorem c10_password_failure (w : World) (sid pw : String) (sess : SessionRec) (c : Nat)
    (now : Nat)
    (hg : dictGet (expire_old_sessions now w).active_sessions sid = some sess)
    (hc : sess.client = some c)
    (hsid : sid ≠ "") (hpw : pw ≠ "") :
    (∀ e ex, async_submit_2fa sid pw (.fail e) ex (expire_old_sessions now w) =
      (expire_old_sessions now w, errResp "Invalid 2FA password")) ∧
    (∀ e ex, submit_2fa (some sid) (some pw) (.fail e) ex now w =
      (expire_old_sessions now w, errResp "Invalid 2FA password")) := by
  constructor
  · intro e ex
    simp [async_submit_2fa, hg, hc]
  · intro e ex
    simp [submit_2fa, optStrTruthy, hsid, hpw, hg, hc, async_submit_2fa]

/-- Witness for `c10_password_failure` on a world with one live session. -/
theorem c10_password_failure_witness :
    (dictGet (expire_old_sessions 1 ⟨[("s1", c1rec)], [0], 1⟩).active_sessions "s1" =
        some c1rec ∧ c1rec.client = some 0) ∧
    submit_2fa (some "s1") (some "pw") (.fail "socket closed") (.ok "s") 1
        ⟨[("s1", c1rec)], [0], 1⟩ =
      (expire_old_sessions 1 ⟨[("s1", c1rec)], [0], 1⟩, errResp "Invalid 2FA password") :=
  ⟨⟨by decide, by decide⟩,
   (c10_password_failure ⟨[("s1", c1rec)], [0], 1⟩ "s1" "pw" c1rec 0 1 (by decide)
     (by decide) (by decide) (by decide)).2 "socket closed" (.ok "s")⟩

/-! ### Claim C4 (success exports, disconnects and destroys in one step) -/

/-- C4: when `verifyCode` or `submitPassword` succeeds (sign-in `ok`,
export yields `s`), the response carries exactly the exported string, and
in the same operation the record is erased from the store and the client
disconnected — the final world is fully determined, holds no new entry
(so the engine keeps no copy of the credential: neither `World` nor
`SessionRec` has any field for it), and any subsequent `verifyCode` or
`submitPassword` with the same handle answers
`Session expired. Please start over.`. -/
theorem c4_success_teardown (w : World) (sid pc pw pc2 pw2 s : String)
    (sess : SessionRec) (c : Nat) (si2 : SignInResult) (ex2 : ExportResult)
    (psi2 : PwSignInResult) (pex2 : ExportResult) (now : Nat)
    (hnodup : w.connected.Nodup)
    (hg : dictGet w.active_sessions sid = some sess)
    (hc : sess.client = some c)
    (hsid : sid ≠ "") (hpc2 : pc2 ≠ "") (hpw2 : pw2 ≠ "") :
    async_verify_code sid pc .ok (.ok s) w =
      (⟨dictErase w.active_sessions sid, w.connected.erase c, w.nextClient⟩, okString s) ∧
    async_submit_2fa sid pw .ok (.ok s) w =
      (⟨dictErase w.active_sessions sid, w.connected.erase c, w.nextClient⟩, okString s) ∧
    dictGet (dictErase w.active_sessions sid) sid = none ∧
    c ∉ w.connected.erase c ∧
    (verify_code (some sid) (some pc2) si2 ex2 now
        ⟨dictErase w.active_sessions sid, w.connected.erase c, w.nextClient⟩).2 =
      errResp "Session expired. Please start over." ∧
    (submit_2fa (some sid) (some pw2) psi2 pex2 now
        ⟨dictErase w.active_sessions sid, w.connected.erase c, w.nextClient⟩).2 =
      errResp "Session expired. Please start over." := by
  have herase : (w.connected.erase c).erase c = w.connected.erase c :=
    List.erase_of_not_mem hnodup.not_mem_erase
  have habs : dictGet (dictErase w.active_sessions sid) sid = none :=
    dictGet_dictErase_self _ _
  have habs2 : dictGet (expire_old_sessions now
      (⟨dictErase w.active_sessions sid, w.connected.erase c, w.nextClient⟩ : World)
        ).active_sessions sid = none :=
    sweep_absent habs
  refine ⟨?_, ?_, habs, hnodup.not_mem_erase, ?_, ?_⟩
  · simp [async_verify_code, hg, hc, cleanup_session, herase]
  · simp [async_submit_2fa, hg, hc, cleanup_session, herase]
  · simp [verify_code, optStrTruthy, hsid, hpc2, habs2]
  · simp [submit_2fa, optStrTruthy, hsid, hpw2, habs2]

/-- Witness for `c4_success_teardown` on a world with one live session. -/
theorem c4_success_teardown_witness :
    ((⟨[("s1", c1rec)], [0], 1⟩ : World).connected.Nodup ∧
     dictGet (⟨[("s1", c1rec)], [0], 1⟩ : World).active_sessions "s1" = some c1rec ∧
     c1rec.client = some 0) ∧
    async_verify_code "s1" "12345" .ok (.ok "EXPORTED") ⟨[("s1", c1rec)], [0], 1⟩ =
      (⟨[], [], 1⟩, okString "EXPORTED") ∧
    (verify_code (some "s1") (some "12345") .ok (.ok "x") 1 ⟨[], [], 1⟩).2 =
      errResp "Session expired. Please start over." :=
  ⟨⟨by decide, by decide, by decide⟩,
   by
    have h := c4_success_teardown ⟨[("s1", c1rec)], [0], 1⟩ "s1" "12345" "pw" "12345" "pw2"
      "EXPORTED" c1rec 0 .ok (.ok "x") .ok (.ok "x") 1 (by decide) (by decide) (by decide)
      (by decide) (by decide) (by decide)
    refine ⟨?_, ?_⟩
    · have h1 := h.1
      simpa using h1
    · have h5 := h.2.2.2.2.1
      simpa using h5⟩

/-! ### Claim C7 (retryable errors leave the session intact) -/

/-- C7: an `InvalidCode` or `CodeExpired` outcome of `verifyCode` and an
`InvalidPassword` outcome of `submitPassword` return their error with the
world exactly the swept input world: the record stays in the store with
every field unchanged, and re-running the failing operation any number of
times still leaves it in place (so the caller may retry until the TTL
removes the record at the sweep of a later request). -/
theorem c7_retryable_frame (w : World) (sid pc pw e : String) (sess : SessionRec) (c : Nat)
    (ex ex2 ex3 : ExportResult) (now : Nat)
    (hg : dictGet (expire_old_sessions now w).active_sessions sid = some sess)
    (hc : sess.client = some c) (hsid : sid ≠ "") (hpc : pc ≠ "") (hpw : pw ≠ "") :
    verify_code (some sid) (some pc) .codeInvalid ex now w =
      (expire_old_sessions now w, errResp "Invalid verification code") ∧
    verify_code (some sid) (some pc) .codeExpired ex2 now w =
      (expire_old_sessions now w,
       errResp "Verification code expired. Please request a new code.") ∧
    submit_2fa (some sid) (some pw) (.fail e) ex3 now w =
      (expire_old_sessions now w, errResp "Invalid 2FA password") ∧
    dictGet (expire_old_sessions now w).active_sessions sid = some sess ∧
    (∀ n, (fun v => (verify_code (some sid) (some pc) .codeInvalid ex now v).1)^[n]
        (expire_old_sessions now w) = expire_old_sessions now w) := by
  have hle : now - sess.created_at ≤ 600 :=
    sweep_unexpired (dictGet_some_mem hg)
  have hnot : ¬(now - sess.created_at > 600) := Nat.not_lt.mpr hle
  have h1 : verify_code (some sid) (some pc) .codeInvalid ex now w =
      (expire_old_sessions now w, errResp "Invalid verification code") := by
    simp [verify_code, optStrTruthy, hsid, hpc, hg, hnot, async_verify_code, hc]
  refine ⟨h1, ?_, ?_, hg, ?_⟩
  · simp [verify_code, optStrTruthy, hsid, hpc, hg, hnot, async_verify_code, hc]
  · simp [submit_2fa, optStrTruthy, hsid, hpw, hg, hc, async_submit_2fa]
  · intro n
    apply Function.iterate_fixed
    have hfix : verify_code (some sid) (some pc) .codeInvalid ex now
        (expire_old_sessions now w) =
        (expire_old_sessions now w, errResp "Invalid verification code") := by
      rw [← verify_code_sweep]
      exact h1
    rw [hfix]

/-- Witness for `c7_retryable_frame` on a world with one live session. -/
theorem c7_retryable_frame_witness :
    (dictGet (expire_old_sessions 1 ⟨[("s1", c1rec)], [0], 1⟩).active_sessions "s1" =
        some c1rec ∧ c1rec.client = some 0) ∧
    verify_code (some "s1") (some "00000") .codeInvalid (.ok "x") 1
        ⟨[("s1", c1rec)], [0], 1⟩ =
      (expire_old_sessions 1 ⟨[("s1", c1rec)], [0], 1⟩,
       errResp "Invalid verification code") ∧
    dictGet (expire_old_sessions 1 ⟨[("s1", c1rec)], [0], 1⟩).active_sessions "s1" =
      some c1rec :=
  ⟨⟨by decide, by decide⟩,
   by
    have h := c7_retryable_frame ⟨[("s1", c1rec)], [0], 1⟩ "s1" "00000" "pw" "net" c1rec 0
      (.ok "x") (.ok "x") (.ok "x") 1 (by decide) (by decide) (by decide) (by decide)
      (by decide)
    exact ⟨h.1, h.2.2.2.1⟩⟩

/-! ### Claim C5 (expiry sweep before any processing) -/

theorem dictGet_of_mem_nodup {l : List (String × SessionRec)} {p : String × SessionRec}
    (hkeys : (l.map (fun q => q.1)).Nodup) (hmem : p ∈ l) : dictGet l p.1 = some p.2 := by
  induction l with
  | nil => cases hmem
  | cons hd tl ih =>
    obtain ⟨k, v⟩ := hd
    rcases List.mem_cons.mp hmem with heq | hmem'
    · rw [heq]
      simp [dictGet]
    · have hk : ¬(k = p.1) := by
        intro hkk
        have hin : p.1 ∈ tl.map (fun q => q.1) := List.mem_map.mpr ⟨p, hmem', rfl⟩
        rw [List.map_cons, List.nodup_cons] at hkeys
        exact hkeys.1 (hkk ▸ hin)
      rw [List.map_cons, List.nodup_cons] at hkeys
      simp [dictGet, hk]
      exact ih hkeys.2 hmem'

theorem cleanup_session_eq {sid : String} {w : World} {sess : SessionRec} {c : Nat}
    (hg : dictGet w.active_sessions sid = some sess) (hc : sess.client = some c) :
    cleanup_session sid w =
      ⟨dictErase w.active_sessions sid, w.connected.erase c, w.nextClient⟩ := by
  simp [cleanup_session, hg, hc]

theorem cleanup_dictGet_ne {sid hd : String} {w : World} (h : sid ≠ hd) :
    dictGet (cleanup_session hd w).active_sessions sid = dictGet w.active_sessions sid := by
  unfold cleanup_session
  cases dictGet w.active_sessions hd with
  | none => rfl
  | some sess =>
    obtain ⟨cl, aid, ah, ph, pch, ca⟩ := sess
    cases cl <;> exact dictGet_dictErase_ne h

theorem cleanup_store_sublist (sid : String) (w : World) :
    List.Sublist (cleanup_session sid w).active_sessions w.active_sessions := by
  unfold cleanup_session
  cases dictGet w.active_sessions sid with
  | none => exact List.Sublist.refl _
  | some sess =>
    obtain ⟨cl, aid, ah, ph, pch, ca⟩ := sess
    cases cl <;> exact List.filter_sublist _

theorem cleanup_keys_nodup {sid : String} {w : World}
    (h : (w.active_sessions.map (fun p => p.1)).Nodup) :
    ((cleanup_session sid w).active_sessions.map (fun p => p.1)).Nodup :=
  (((cleanup_store_sublist sid w).map _).nodup) h

theorem cleanup_conn_nodup {sid : String} {w : World} (h : w.connected.Nodup) :
    (cleanup_session sid w).connected.Nodup :=
  (cleanup_connected_sublist sid w).nodup h

theorem foldl_cleanup_disconnects {sids : List String} {w : World} {sid : String}
    {sess : SessionRec} {c : Nat}
    (hkeys : (w.active_sessions.map (fun p => p.1)).Nodup)
    (hconn : w.connected.Nodup)
    (hmem : sid ∈ sids)
    (hg : dictGet w.active_sessions sid = some sess)
    (hc : sess.client = some c) :
    c ∉ (sids.foldl (fun acc s => cleanup_session s acc) w).connected := by
  induction sids generalizing w with
  | nil => cases hmem
  | cons hd tl ih =>
    rw [List.foldl_cons]
    by_cases hhd : hd = sid
    · subst hhd
      rw [cleanup_session_eq hg hc]
      exact foldl_cleanup_not_connected hconn.not_mem_erase
    · rcases List.mem_cons.mp hmem with heq | hmem'
      · exact absurd heq.symm hhd
      · exact ih (cleanup_keys_nodup hkeys) (cleanup_conn_nodup hconn) hmem'
          (by rw [cleanup_dictGet_ne (fun hh => hhd hh.symm)]; exact hg)

/-- C5: every route calls `expire_old_sessions` first (each handler on `w`
equals the same handler on the swept world), and the sweep itself
destroys exactly the over-TTL records as a terminal transition would:
after it no stored record has `now - createdAt > 600`, and every record
that was over the TTL is gone from the store with its client no longer
connected.  Hence no record older than the TTL is ever used to service a
request. -/
theorem c5_sweep_first (now : Nat) (w : World)
    (hkeys : (w.active_sessions.map (fun p => p.1)).Nodup)
    (hconn : w.connected.Nodup) :
    (∀ p ∈ (expire_old_sessions now w).active_sessions, now - p.2.created_at ≤ 600) ∧
    (∀ p ∈ w.active_sessions, now - p.2.created_at > 600 →
      dictGet (expire_old_sessions now w).active_sessions p.1 = none ∧
      ∀ c, p.2.client = some c → c ∉ (expire_old_sessions now w).connected) ∧
    (∀ req gsid co sr, send_code req gsid co sr now w =
        send_code req gsid co sr now (expire_old_sessions now w)) ∧
    (∀ sidc pcc si ex, verify_code sidc pcc si ex now w =
        verify_code sidc pcc si ex now (expire_old_sessions now w)) ∧
    (∀ sidc pwc psi pex, submit_2fa sidc pwc psi pex now w =
        submit_2fa sidc pwc psi pex now (expire_old_sessions now w)) := by
  refine ⟨fun p hp => sweep_unexpired hp, ?_,
    fun req gsid co sr => send_code_sweep req gsid co sr now w,
    fun sidc pcc si ex => verify_code_sweep sidc pcc si ex now w,
    fun sidc pwc psi pex => submit_2fa_sweep sidc pwc psi pex now w⟩
  intro p hp hexp
  have hgp : dictGet w.active_sessions p.1 = some p.2 := dictGet_of_mem_nodup hkeys hp
  constructor
  · exact sweep_expired_absent hgp hexp
  · intro c hc
    have hmemk : p.1 ∈ (w.active_sessions.filter
        (fun q => now - q.2.created_at > 600)).map (fun q => q.1) :=
      List.mem_map.mpr ⟨p, List.mem_filter.mpr ⟨hp, by simpa using hexp⟩, rfl⟩
    rw [expire_def]
    exact foldl_cleanup_disconnects hkeys hconn hmemk hgp hc

/-- Witness for `c5_sweep_first` at time 700 on a world holding one
expired record (`s1`, created at 0) and one fresh record. -/
theorem c5_sweep_first_witness :
    (((⟨[("s1", c1rec), ("s2", c5recB)], [0, 1], 2⟩ : World).active_sessions.map
        (fun p => p.1)).Nodup ∧
     (⟨[("s1", c1rec), ("s2", c5recB)], [0, 1], 2⟩ : World).connected.Nodup) ∧
    ((∀ p ∈ (expire_old_sessions 700
        ⟨[("s1", c1rec), ("s2", c5recB)], [0, 1], 2⟩).active_sessions,
        700 - p.2.created_at ≤ 600) ∧
     (∀ p ∈ (⟨[("s1", c1rec), ("s2", c5recB)], [0, 1], 2⟩ : World).active_sessions,
        700 - p.2.created_at > 600 →
        dictGet (expire_old_sessions 700
          ⟨[("s1", c1rec), ("s2", c5recB)], [0, 1], 2⟩).active_sessions p.1 = none ∧
        ∀ c, p.2.client = some c → c ∉ (expire_old_sessions 700
          ⟨[("s1", c1rec), ("s2", c5recB)], [0, 1], 2⟩).connected) ∧
     (∀ req gsid co sr, send_code req gsid co sr 700
          ⟨[("s1", c1rec), ("s2", c5recB)], [0, 1], 2⟩ =
        send_code req gsid co sr 700 (expire_old_sessions 700
          ⟨[("s1", c1rec), ("s2", c5recB)], [0, 1], 2⟩)) ∧
     (∀ sidc pcc si ex, verify_code sidc pcc si ex 700
          ⟨[("s1", c1rec), ("s2", c5recB)], [0, 1], 2⟩ =
        verify_code sidc pcc si ex 700 (expire_old_sessions 700
          ⟨[("s1", c1rec), ("s2", c5recB)], [0, 1], 2⟩)) ∧
     (∀ sidc pwc psi pex, submit_2fa sidc pwc psi pex 700
          ⟨[("s1", c1rec), ("s2", c5recB)], [0, 1], 2⟩ =
        submit_2fa sidc pwc psi pex 700 (expire_old_sessions 700
          ⟨[("s1", c1rec), ("s2", c5recB)], [0, 1], 2⟩))) :=
  ⟨⟨by decide, by decide⟩,
   c5_sweep_first 700 ⟨[("s1", c1rec), ("s2", c5recB)], [0, 1], 2⟩ (by decide) (by decide)⟩

/-! ### Claim C3 (a record exists iff its connection is live) -/

theorem cleanup_session_absent {sid : String} {w : World}
    (hg : dictGet w.active_sessions sid = none) : cleanup_session sid w = w := by
  simp [cleanup_session, hg]

theorem dictErase_of_absent {l : List (String × SessionRec)} {sid : String}
    (h : dictGet l sid = none) : dictErase l sid = l :=
  List.filter_eq_self.mpr (fun p hp => by simpa using dictGet_none_iff.mp h p hp)

theorem dictInsert_absent {l : List (String × SessionRec)} {sid : String} {rec : SessionRec}
    (h : dictGet l sid = none) : dictInsert l sid rec = l ++ [(sid, rec)] := by
  induction l with
  | nil => rfl
  | cons hd tl ih =>
    obtain ⟨k, v⟩ := hd
    have hk : ¬(k = sid) := by
      intro hkk
      simp [dictGet, hkk] at h
    simp only [dictInsert, hk, if_false, List.cons_append, List.cons.injEq, true_and]
    exact ih (by simpa [dictGet, hk] using h)

/-- Erasing the record that owns client `c` removes exactly `c` from the
clients of the store (keys and clients assumed duplicate-free). -/
theorem storeClients_dictErase {l : List (String × SessionRec)} {sid : String}
    {sess : SessionRec} {c : Nat}
    (hkeys : (l.map (fun p => p.1)).Nodup)
    (hcl : (l.filterMap (fun p => p.2.client)).Nodup)
    (hg : dictGet l sid = some sess) (hc : sess.client = some c) :
    (dictErase l sid).filterMap (fun p => p.2.client) =
      (l.filterMap (fun p => p.2.client)).erase c := by
  induction l with
  | nil => simp [dictGet] at hg
  | cons hd tl ih =>
    obtain ⟨k, v⟩ := hd
    by_cases hk : k = sid
    · have hv : v = sess := by simpa [dictGet, hk] using hg
      subst hv
      have hnot : dictGet tl sid = none := by
        rw [dictGet_none_iff]
        intro p hp hps
        rw [List.map_cons, List.nodup_cons] at hkeys
        exact hkeys.1 (by rw [hk]; exact hps ▸ List.mem_map.mpr ⟨p, hp, rfl⟩)
      have herase : dictErase ((k, v) :: tl) sid = tl := by
        simp [dictErase, List.filter_cons, hk]
        simpa [dictErase] using dictErase_of_absent hnot
      rw [herase]
      simp [List.filterMap_cons, hc, List.erase_cons_head]
    · have hg' : dictGet tl sid = some sess := by simpa [dictGet, hk] using hg
      have hkeys' : (tl.map (fun p => p.1)).Nodup := by
        rw [List.map_cons, List.nodup_cons] at hkeys
        exact hkeys.2
      have herase : dictErase ((k, v) :: tl) sid = (k, v) :: dictErase tl sid := by
        simp [dictErase, List.filter_cons, hk]
      rw [herase]
      cases hvc : v.client with
      | none =>
        have hcl' : (tl.filterMap (fun p => p.2.client)).Nodup := by
          simpa [List.filterMap_cons, hvc] using hcl
        simp [List.filterMap_cons, hvc, ih hkeys' hcl' hg']
      | some d =>
        have hclc : (d :: tl.filterMap (fun p => p.2.client)).Nodup := by
          simpa [List.filterMap_cons, hvc] using hcl
        have hdd : d ∉ tl.filterMap (fun p => p.2.client) := (List.nodup_cons.mp hclc).1
        have hcl' : (tl.filterMap (fun p => p.2.client)).Nodup := (List.nodup_cons.mp hclc).2
        have hcin : c ∈ tl.filterMap (fun p => p.2.client) :=
          List.mem_filterMap.mpr ⟨(sid, sess), dictGet_some_mem hg', by simpa using hc⟩
        have hdc : ¬((d == c) = true) := by
          simp only [beq_iff_eq]
          exact fun hh => hdd (hh ▸ hcin)
        simp only [List.filterMap_cons, hvc]
        rw [List.erase_cons_tail hdc, ih hkeys' hcl' hg']

theorem cleanup_preserves_Inv {sid : String} {w : World} (h : Inv w) :
    Inv (cleanup_session sid w) := by
  obtain ⟨hkeys, hconn, hcl, hsome, hfwd, hbwd, hlt⟩ := h
  cases hg : dictGet w.active_sessions sid with
  | none =>
    rw [cleanup_session_absent hg]
    exact ⟨hkeys, hconn, hcl, hsome, hfwd, hbwd, hlt⟩
  | some sess =>
    have hsc : (sess.client).isSome = true := hsome (sid, sess) (dictGet_some_mem hg)
    obtain ⟨c, hc⟩ := Option.isSome_iff_exists.mp hsc
    rw [cleanup_session_eq hg hc]
    have heq := storeClients_dictErase hkeys hcl hg hc
    refine ⟨?_, ?_, ?_, ?_, ?_, ?_, ?_⟩
    · show ((dictErase w.active_sessions sid).map (fun p => p.1)).Nodup
      exact (((List.filter_sublist _).map _).nodup) hkeys
    · show (w.connected.erase c).Nodup
      exact (List.erase_sublist c w.connected).nodup hconn
    · show ((dictErase w.active_sessions sid).filterMap (fun p => p.2.client)).Nodup
      rw [heq]
      exact (List.erase_sublist _ _).nodup hcl
    · intro p hp
      exact hsome p (dictErase_mem hp)
    · intro d hd
      have hd' : d ∈ (w.active_sessions.filterMap (fun p => p.2.client)).erase c := by
        rw [← heq]
        exact hd
      have hdc : d ≠ c := fun hh => hcl.not_mem_erase (hh ▸ hd')
      exact (List.mem_erase_of_ne hdc).mpr (hfwd d (List.mem_of_mem_erase hd'))
    · intro d hd
      have hdc : d ≠ c := fun hh => hconn.not_mem_erase (hh ▸ hd)
      have hmem : d ∈ storeClients w := hbwd d (List.mem_of_mem_erase hd)
      show d ∈ (dictErase w.active_sessions sid).filterMap (fun p => p.2.client)
      rw [heq]
      exact (List.mem_erase_of_ne hdc).mpr hmem
    · intro d hd
      exact hlt d (List.mem_of_mem_erase hd)

theorem foldl_cleanup_preserves_Inv {sids : List String} {w : World} (h : Inv w) :
    Inv (sids.foldl (fun acc s => cleanup_session s acc) w) := by
  induction sids generalizing w with
  | nil => exact h
  | cons hd tl ih =>
    rw [List.foldl_cons]
    exact ih (cleanup_preserves_Inv h)

theorem sweep_preserves_Inv {now : Nat} {w : World} (h : Inv w) :
    Inv (expire_old_sessions now w) := by
  rw [expire_def]
  exact foldl_cleanup_preserves_Inv h

theorem async_send_code_preserves_Inv {api_id : Int} {api_hash phone session_id : String}
    {co : ConnectResult} {sr : SendCodeResult} {now : Nat} {w : World}
    (h : Inv w) (hfresh : dictGet w.active_sessions session_id = none) :
    Inv (async_send_code api_id api_hash phone session_id co sr now w).1 := by
  obtain ⟨hkeys, hconn, hcl, hsome, hfwd, hbwd, hlt⟩ := h
  have hnc : w.nextClient ∉ w.connected := fun hmem => lt_irrefl _ (hlt _ hmem)
  have hbump : ∀ c ∈ w.connected, c < w.nextClient + 1 :=
    fun c hcm => Nat.lt_succ_of_lt (hlt c hcm)
  cases co with
  | fail e =>
    simp only [async_send_code, List.erase_of_not_mem hnc]
    exact ⟨hkeys, hconn, hcl, hsome, hfwd, hbwd, hbump⟩
  | ok =>
    cases sr with
    | apiIdInvalid =>
      simp only [async_send_code, List.erase_cons_head]
      exact ⟨hkeys, hconn, hcl, hsome, hfwd, hbwd, hbump⟩
    | phoneNumberInvalid =>
      simp only [async_send_code, List.erase_cons_head]
      exact ⟨hkeys, hconn, hcl, hsome, hfwd, hbwd, hbump⟩
    | fail e =>
      simp only [async_send_code, List.erase_cons_head]
      exact ⟨hkeys, hconn, hcl, hsome, hfwd, hbwd, hbump⟩
    | sent pch =>
      have hsidkeys : session_id ∉ w.active_sessions.map (fun p => p.1) := by
        intro hin
        obtain ⟨p, hp, hps⟩ := List.mem_map.mp hin
        exact dictGet_none_iff.mp hfresh p hp hps
      have hncl : w.nextClient ∉ w.active_sessions.filterMap (fun p => p.2.client) :=
        fun hin => hnc (hfwd _ hin)
      simp only [async_send_code, dictInsert_absent hfresh]
      refine ⟨?_, ?_, ?_, ?_, ?_, ?_, ?_⟩
      · show ((w.active_sessions ++
            [(session_id, (⟨some w.nextClient, api_id, api_hash, phone, pch, now⟩ : SessionRec))]).map
            (fun p => p.1)).Nodup
        rw [List.map_append]
        refine List.nodup_append.mpr ⟨hkeys, List.nodup_singleton _, ?_⟩
        intro a ha hb
        simp at hb
        exact hsidkeys (hb ▸ ha)
      · show (w.nextClient :: w.connected).Nodup
        exact List.nodup_cons.mpr ⟨hnc, hconn⟩
      · show ((w.active_sessions ++
            [(session_id, (⟨some w.nextClient, api_id, api_hash, phone, pch, now⟩ : SessionRec))]).filterMap
            (fun p => p.2.client)).Nodup
        rw [List.filterMap_append]
        refine List.nodup_append.mpr ⟨hcl, by simp, ?_⟩
        intro a ha hb
        simp at hb
        exact hncl (hb ▸ ha)
      · intro p hp
        have hp2 : p ∈ w.active_sessions ++
            [(session_id, (⟨some w.nextClient, api_id, api_hash, phone, pch, now⟩ : SessionRec))] := hp
        rcases List.mem_append.mp hp2 with hold | hnew
        · exact hsome p hold
        · simp at hnew
          simp [hnew]
      · intro d hd
        have hd2 : d ∈ (w.active_sessions ++
            [(session_id, (⟨some w.nextClient, api_id, api_hash, phone, pch, now⟩ : SessionRec))]).filterMap
            (fun p => p.2.client) := hd
        rw [List.filterMap_append] at hd2
        show d ∈ w.nextClient :: w.connected
        rcases List.mem_append.mp hd2 with hold | hnew
        · exact List.mem_cons_of_mem _ (hfwd d hold)
        · simp at hnew
          simp [hnew]
      · intro d hd
        have hd2 : d ∈ w.nextClient :: w.connected := hd
        show d ∈ (w.active_sessions ++
            [(session_id, (⟨some w.nextClient, api_id, api_hash, phone, pch, now⟩ : SessionRec))]).filterMap
            (fun p => p.2.client)
        rw [List.filterMap_append]
        rcases List.mem_cons.mp hd2 with heq | hold
        · apply List.mem_append.mpr
          right
          simp [heq]
        · exact List.mem_append.mpr (Or.inl (hbwd d hold))
      · intro d hd
        have hd2 : d ∈ w.nextClient :: w.connected := hd
        show d < w.nextClient + 1
        rcases List.mem_cons.mp hd2 with heq | hold
        · rw [heq]
          exact Nat.lt_succ_self _
        · exact hbump d hold

theorem async_verify_code_preserves_Inv {sid pc : String} {si : SignInResult}
    {ex : ExportResult} {w : World} (h : Inv w) :
    Inv (async_verify_code sid pc si ex w).1 := by
  cases hg : dictGet w.active_sessions sid with
  | none => simpa [async_verify_code, hg] using h
  | some sess =>
    have hsc : (sess.client).isSome = true := h.2.2.2.1 (sid, sess) (dictGet_some_mem hg)
    obtain ⟨c, hc⟩ := Option.isSome_iff_exists.mp hsc
    have herase : (w.connected.erase c).erase c = w.connected.erase c :=
      List.erase_of_not_mem (h.2.1).not_mem_erase
    cases si with
    | passwordNeeded => simpa [async_verify_code, hg, hc] using h
    | codeInvalid => simpa [async_verify_code, hg, hc] using h
    | codeExpired => simpa [async_verify_code, hg, hc] using h
    | fail e => simpa [async_verify_code, hg, hc] using h
    | ok =>
      have hgoal : ∀ r : ExportResult, (async_verify_code sid pc .ok r w).1 =
          cleanup_session sid w := by
        intro r
        cases r <;>
          simp [async_verify_code, hg, hc, cleanup_session, herase]
      rw [hgoal ex]
      exact cleanup_preserves_Inv h

theorem async_submit_2fa_preserves_Inv {sid pw : String} {si : PwSignInResult}
    {ex : ExportResult} {w : World} (h : Inv w) :
    Inv (async_submit_2fa sid pw si ex w).1 := by
  cases hg : dictGet w.active_sessions sid with
  | none => simpa [async_submit_2fa, hg] using h
  | some sess =>
    have hsc : (sess.client).isSome = true := h.2.2.2.1 (sid, sess) (dictGet_some_mem hg)
    obtain ⟨c, hc⟩ := Option.isSome_iff_exists.mp hsc
    have herase : (w.connected.erase c).erase c = w.connected.erase c :=
      List.erase_of_not_mem (h.2.1).not_mem_erase
    cases si with
    | fail e => simpa [async_submit_2fa, hg, hc] using h
    | ok =>
      have hgoal : ∀ r : ExportResult, (async_submit_2fa sid pw .ok r w).1 =
          cleanup_session sid w := by
        intro r
        cases r <;>
          simp [async_submit_2fa, hg, hc, cleanup_session, herase]
      rw [hgoal ex]
      exact cleanup_preserves_Inv h

theorem send_code_preserves_Inv {req : SendCodeRequest} {gsid : String} {co : ConnectResult}
    {sr : SendCodeResult} {now : Nat} {w : World} (h : Inv w)
    (hfresh : dictGet w.active_sessions gsid = none) :
    Inv (send_code req gsid co sr now w).1 := by
  have hs : Inv (expire_old_sessions now w) := sweep_preserves_Inv h
  have hf : dictGet (expire_old_sessions now w).active_sessions gsid = none :=
    sweep_absent hfresh
  cases hcond : (optTruthy req.api_id && optStrTruthy req.api_hash &&
      optStrTruthy req.phone_number) with
  | false =>
    simp only [send_code, hcond, Bool.false_eq_true, if_false]
    exact hs
  | true =>
    cases hint : (req.api_id.getD (.jint 0)).toInt with
    | none =>
      simp only [send_code, hcond, if_true, hint]
      exact hs
    | some n =>
      simp only [send_code, hcond, if_true, hint]
      exact async_send_code_preserves_Inv hs hf

theorem verify_code_preserves_Inv {sidc pcc : Option String} {si : SignInResult}
    {ex : ExportResult} {now : Nat} {w : World} (h : Inv w) :
    Inv (verify_code sidc pcc si ex now w).1 := by
  have hs : Inv (expire_old_sessions now w) := sweep_preserves_Inv h
  cases hcond : (optStrTruthy sidc && optStrTruthy pcc) with
  | false =>
    simp only [verify_code, hcond, Bool.false_eq_true, if_false]
    exact hs
  | true =>
    cases hg : dictGet (expire_old_sessions now w).active_sessions (sidc.getD "") with
    | none =>
      simp only [verify_code, hcond, if_true, hg]
      exact hs
    | some sess =>
      by_cases httl : now - sess.created_at > 600
      · simp only [verify_code, hcond, if_true, hg]
        rw [if_pos httl]
        exact cleanup_preserves_Inv hs
      · simp only [verify_code, hcond, if_true, hg]
        rw [if_neg httl]
        exact async_verify_code_preserves_Inv hs

theorem submit_2fa_preserves_Inv {sidc pwc : Option String} {si : PwSignInResult}
    {ex : ExportResult} {now : Nat} {w : World} (h : Inv w) :
    Inv (submit_2fa sidc pwc si ex now w).1 := by
  have hs : Inv (expire_old_sessions now w) := sweep_preserves_Inv h
  cases hcond : (optStrTruthy sidc && optStrTruthy pwc) with
  | false =>
    simp only [submit_2fa, hcond, Bool.false_eq_true, if_false]
    exact hs
  | true =>
    cases hg : dictGet (expire_old_sessions now w).active_sessions (sidc.getD "") with
    | none =>
      simp only [submit_2fa, hcond, if_true, hg]
      exact hs
    | some sess =>
      simp only [submit_2fa, hcond, if_true, hg]
      exact async_submit_2fa_preserves_Inv hs

/-- C3: the invariant `Inv` — a handle is in the store iff its client's
connection is live (`storeClients` and `connected` contain the same ids),
with handles and clients unaliased — is preserved by the sweep and by
every public operation, for any protocol outcomes (the generated handle
of `begin` assumed fresh; handle collisions, which the code does not
check, are the subject of the `c8` theorems).  Every terminal transition
inside these operations removes the record and disconnects the client in
the same step, which is exactly what keeps the two sides synchronized. -/
theorem c3_record_iff_connection (w : World) (now : Nat) (req : SendCodeRequest)
    (gsid : String) (co : ConnectResult) (sr : SendCodeResult)
    (sidc pcc pwc : Option String) (si : SignInResult) (ex : ExportResult)
    (psi : PwSignInResult) (pex : ExportResult)
    (hInv : Inv w) (hfresh : dictGet w.active_sessions gsid = none) :
    Inv (expire_old_sessions now w) ∧
    Inv (send_code req gsid co sr now w).1 ∧
    Inv (verify_code sidc pcc si ex now w).1 ∧
    Inv (submit_2fa sidc pwc psi pex now w).1 :=
  ⟨sweep_preserves_Inv hInv, send_code_preserves_Inv hInv hfresh,
   verify_code_preserves_Inv hInv, submit_2fa_preserves_Inv hInv⟩

/-- Witness for `c3_record_iff_connection` on `c1world` with a fresh
handle, a successful code-request outcome and a successful sign-in. -/
theorem c3_record_iff_connection_witness :
    (Inv c1world ∧ dictGet c1world.active_sessions "h2" = none) ∧
    (Inv (expire_old_sessions 1 c1world) ∧
     Inv (send_code ⟨some (.jint 5), some "aa", some "+1"⟩ "h2" .ok (.sent (some "p"))
        1 c1world).1 ∧
     Inv (verify_code (some "s1") (some "12345") .ok (.ok "x") 1 c1world).1 ∧
     Inv (submit_2fa (some "s1") (some "pw") .ok (.ok "x") 1 c1world).1) :=
  ⟨⟨by unfold Inv storeKeys storeClients; decide, by decide⟩,
   c3_record_iff_connection c1world 1 ⟨some (.jint 5), some "aa", some "+1"⟩ "h2"
     .ok (.sent (some "p")) (some "s1") (some "12345") (some "pw") .ok (.ok "x") .ok (.ok "x")
     (by unfold Inv storeKeys storeClients; decide) (by decide)⟩

/-! ### Claim C8 (handle collisions) -/

/-- C8 counterexample: the claim says a freshly generated handle that
already names a live record is rejected with a `HandleCollision` error
and an existing record is never silently overwritten.  The source never
checks: `active_sessions[session_id] = {...}` (line 136) replaces the
entry.  Concretely, on `c8world` (which already maps handle `h` to
`c8old`) a `begin` whose random token is `h` succeeds and afterwards `h`
names the new record, not `c8old` — and `c8old`'s client `0` was never
disconnected. -/
theorem c8_counterexample :
    dictGet c8world.active_sessions "h" = some c8old ∧
    (send_code ⟨some (.jint 5), some "aa", some "+1"⟩ "h" .ok (.sent (some "p2")) 0
        c8world).2 = okSession "h" ∧
    dictGet (send_code ⟨some (.jint 5), some "aa", some "+1"⟩ "h" .ok (.sent (some "p2")) 0
        c8world).1.active_sessions "h" =
      some ⟨some 1, 5, "aa", "+1", some "p2", 0⟩ ∧
    (⟨some 1, 5, "aa", "+1", some "p2", 0⟩ : SessionRec) ≠ c8old ∧
    0 ∈ (send_code ⟨some (.jint 5), some "aa", some "+1"⟩ "h" .ok (.sent (some "p2")) 0
        c8world).1.connected := by
  decide

/-- C8 (amended): `begin` performs no collision check.  When the freshly
generated handle already names a record surviving the sweep, the
operation still proceeds and succeeds: afterwards the store maps the
handle to the newly created record (the previous record is silently
replaced), and whatever client the previous record owned is left
connected. -/
theorem c8_overwrite (w : World) (now : Nat) (sid : String) (old : SessionRec)
    (aid : JVal) (n : Int) (ah ph : String) (pch : Option String)
    (hg : dictGet (expire_old_sessions now w).active_sessions sid = some old)
    (htr : aid.truthy = true) (hint : aid.toInt = some n) (hah : ah ≠ "") (hph : ph ≠ "") :
    send_code ⟨some aid, some ah, some ph⟩ sid .ok (.sent pch) now w =
      ({ active_sessions := dictInsert (expire_old_sessions now w).active_sessions sid
           ⟨some (expire_old_sessions now w).nextClient, n, ah, ph, pch, now⟩,
         connected := (expire_old_sessions now w).nextClient ::
           (expire_old_sessions now w).connected,
         nextClient := (expire_old_sessions now w).nextClient + 1 }, okSession sid) ∧
    dictGet (send_code ⟨some aid, some ah, some ph⟩ sid .ok (.sent pch) now
        w).1.active_sessions sid =
      some ⟨some (expire_old_sessions now w).nextClient, n, ah, ph, pch, now⟩ ∧
    (∀ c, old.client = some c → c ∈ (expire_old_sessions now w).connected →
      c ∈ (send_code ⟨some aid, some ah, some ph⟩ sid .ok (.sent pch) now w).1.connected) := by
  have h1 : send_code ⟨some aid, some ah, some ph⟩ sid .ok (.sent pch) now w =
      ({ active_sessions := dictInsert (expire_old_sessions now w).active_sessions sid
           ⟨some (expire_old_sessions now w).nextClient, n, ah, ph, pch, now⟩,
         connected := (expire_old_sessions now w).nextClient ::
           (expire_old_sessions now w).connected,
         nextClient := (expire_old_sessions now w).nextClient + 1 }, okSession sid) := by
    simp [send_code, optTruthy, optStrTruthy, htr, hah, hph, hint, async_send_code]
  refine ⟨h1, ?_, ?_⟩
  · rw [h1]
    exact dictGet_dictInsert_self _ _ _
  · intro c hc hcm
    rw [h1]
    exact List.mem_cons_of_mem _ hcm

/-- Witness for `c8_overwrite` on `c8world`, whose handle `h` collides. -/
theorem c8_overwrite_witness :
    (dictGet (expire_old_sessions 0 c8world).active_sessions "h" = some c8old ∧
     (JVal.jint 5).truthy = true ∧ (JVal.jint 5).toInt = some 5) ∧
    send_code ⟨some (.jint 5), some "aa", some "+1"⟩ "h" .ok (.sent (some "p2")) 0 c8world =
      ({ active_sessions := dictInsert (expire_old_sessions 0 c8world).active_sessions "h"
           ⟨some (expire_old_sessions 0 c8world).nextClient, 5, "aa", "+1", some "p2", 0⟩,
         connected := (expire_old_sessions 0 c8world).nextClient ::
           (expire_old_sessions 0 c8world).connected,
         nextClient := (expire_old_sessions 0 c8world).nextClient + 1 }, okSession "h") :=
  ⟨⟨by decide, by decide, by decide⟩,
   (c8_overwrite c8world 0 "h" c8old (.jint 5) 5 "aa" "+1" (some "p2") (by decide)
     (by decide) (by decide) (by decide) (by decide)).1⟩

/-! ### Claim C9 (input validation of begin) -/

/-- C9 counterexample: the claim says every input with `apiId <= 0` gets
an error response without creating a session or invoking any protocol
operation.  The route only checks truthiness and `int(...)`-parsability
of `api_id` — never positivity.  Concretely `api_id = "-5"` parses to
`-5 <= 0`, yet the request proceeds to the protocol layer and (with a
successful remote outcome) even creates a session and returns success. -/
theorem c9_counterexample :
    ((JVal.jstr "-5").toInt = some (-5) ∧ (-5 : Int) ≤ 0 ∧
      optTruthy (some (.jstr "-5")) = true) ∧
    (send_code ⟨some (.jstr "-5"), some "aa", some "+1"⟩ "h" .ok (.sent none) 0
        ⟨[], [], 0⟩).2 = okSession "h" ∧
    dictGet (send_code ⟨some (.jstr "-5"), some "aa", some "+1"⟩ "h" .ok (.sent none) 0
        ⟨[], [], 0⟩).1.active_sessions "h" = some ⟨some 0, -5, "aa", "+1", none, 0⟩ := by
  decide

/-- C9 (amended): `begin` validates only presence/truthiness of the three
fields and `int`-parsability of `apiId`; it does not check `apiId > 0`.
A missing or falsy field yields `All fields are required`, an unparsable
`apiId` yields `API ID must be a number` — in both cases for every
protocol outcome identically (so no protocol operation influences the
result) and with the store exactly the swept store (no session created).
Any truthy, parsable `apiId` — zero or negative included — proceeds to
the protocol layer. -/
theorem c9_validation (req : SendCodeRequest) (gsid : String) (now : Nat) (w : World) :
    ((optTruthy req.api_id && optStrTruthy req.api_hash &&
        optStrTruthy req.phone_number) = false →
      ∀ co sr, send_code req gsid co sr now w =
        (expire_old_sessions now w, errResp "All fields are required")) ∧
    ((optTruthy req.api_id && optStrTruthy req.api_hash &&
        optStrTruthy req.phone_number) = true →
      (req.api_id.getD (.jint 0)).toInt = none →
      ∀ co sr, send_code req gsid co sr now w =
        (expire_old_sessions now w, errResp "API ID must be a number")) ∧
    ((optTruthy req.api_id && optStrTruthy req.api_hash &&
        optStrTruthy req.phone_number) = true →
      ∀ n, (req.api_id.getD (.jint 0)).toInt = some n →
      ∀ co sr, send_code req gsid co sr now w =
        async_send_code n (req.api_hash.getD "") (req.phone_number.getD "") gsid co sr now
          (expire_old_sessions now w)) := by
  refine ⟨?_, ?_, ?_⟩
  · intro hcond co sr
    simp [send_code, hcond]
  · intro hcond hint co sr
    simp [send_code, hcond, hint]
  · intro hcond n hint co sr
    simp [send_code, hcond, hint]

/-- Witness for `c9_validation`: a request with an empty `api_hash` is
rejected for any outcome; a request with `api_id = "-5"` reaches the
protocol layer. -/
theorem c9_validation_witness :
    ((optTruthy (some (.jstr "-5")) && optStrTruthy (some "") &&
        optStrTruthy (some "+1")) = false ∧
     send_code ⟨some (.jstr "-5"), some "", some "+1"⟩ "h" .ok (.sent none) 0 ⟨[], [], 0⟩ =
       (expire_old_sessions 0 ⟨[], [], 0⟩, errResp "All fields are required")) ∧
    ((optTruthy (some (.jstr "-5")) && optStrTruthy (some "aa") &&
        optStrTruthy (some "+1")) = true ∧
     ((some (.jstr "-5") : Option JVal).getD (.jint 0)).toInt = some (-5) ∧
     send_code ⟨some (.jstr "-5"), some "aa", some "+1"⟩ "h" .ok (.sent none) 0 ⟨[], [], 0⟩ =
       async_send_code (-5) "aa" "+1" "h" .ok (.sent none) 0
         (expire_old_sessions 0 ⟨[], [], 0⟩)) :=
  ⟨⟨by decide,
    (c9_validation ⟨some (.jstr "-5"), some "", some "+1"⟩ "h" 0 ⟨[], [], 0⟩).1 (by decide)
      .ok (.sent none)⟩,
   ⟨by decide, by decide,
    (c9_validation ⟨some (.jstr "-5"), some "aa", some "+1"⟩ "h" 0 ⟨[], [], 0⟩).2.2 (by decide)
      (-5) (by decide) .ok (.sent none)⟩⟩

end TelethonSession
